import Mathlib

/-!
Verification development for the FPL transfer/captaincy advisor.

The decision logic of the repository is embedded shallowly:

* `src/optimizer/transfer_optimizer.py` — the MILP transfer optimizer.
  The PuLP solver is abstracted as an `LpResult` (a reported status plus a
  binary assignment to the three families of decision variables); the
  constraints the source adds to the problem are embedded as the predicate
  `Feasible`, and the result-extraction code as `extract_plan`.
* `src/optimizer/advisors.py` — captaincy scoring, form-trend analysis and
  transfer-recommendation heuristics.  Database queries are abstracted as
  function parameters carrying the values the queries produce; Python
  floats are modelled as exact rationals; a computation that can raise in
  Python (division by zero, `statistics.mean` of an empty list, indexing
  an empty list) is modelled in `Except String`.
-/

/-- A player dictionary as produced by `get_available_players` /
`get_current_team` in `src/optimizer/data_utils.py`: keys `id`, `name`,
`position` (one of the strings "GK"/"DEF"/"MID"/"FWD"), `price`,
`expected_points`, `team_id`. -/
structure PlayerRec where
  id : Nat
  name : String
  position : String
  price : ℚ
  expected_points : ℚ
  team_id : Nat
deriving DecidableEq, Repr

/-- Abstraction of one `prob.solve()` call of PuLP: the reported status
(`optimal = true` iff `prob.status == pulp.LpStatusOptimal`) together with
the values assigned to the binary decision variables, read off per player
id exactly as `pulp.value(player_vars[p.id]) == 1` etc. -/
structure LpResult where
  optimal : Bool
  sel : Nat → Bool
  tin : Nat → Bool
  tout : Nat → Bool

/-- The ids of the current squad (`current_ids` in `optimize_transfers`). -/
def current_ids (current_team : List PlayerRec) : List Nat :=
  current_team.map (·.id)

/-- The position quota table of `optimize_transfers` and
`optimize_wildcard`: `positions = {'GK': 2, 'DEF': 5, 'MID': 5, 'FWD': 3}`. -/
def positions : List (String × Nat) :=
  [("GK", 2), ("DEF", 5), ("MID", 5), ("FWD", 3)]

/-- `total_transfers`: the number of transfer-in variables set to 1
(`lpSum` of binary variables over the pool). -/
def total_transfers (available : List PlayerRec) (tin : Nat → Bool) : Nat :=
  available.countP (fun p => tin p.id)

/-- The `transfer_cost_penalty` expression of lines 47-49 of
`transfer_optimizer.py`: `(total_transfers - free_transfers) * transfer_cost`.
Note that the source does NOT clamp this at zero, so it is negative when
fewer transfers than the free allotment are made. -/
def transfer_cost_penalty (available : List PlayerRec) (free_transfers : Nat)
    (transfer_cost : ℚ) (tin : Nat → Bool) : ℚ :=
  ((total_transfers available tin : ℚ) - free_transfers) * transfer_cost

/-- `_get_selling_price`: simplified to the current price. -/
def get_selling_price (p : PlayerRec) : ℚ := p.price

/-- `money_from_sales`: `lpSum(transfer_out_vars[p.id] * selling_price(p))`
over the current squad. -/
def money_from_sales (current_team : List PlayerRec) (tout : Nat → Bool) : ℚ :=
  (current_team.map (fun p => if tout p.id then get_selling_price p else 0)).sum

/-- `money_for_purchases`: `lpSum(transfer_in_vars[p.id] * p.price)` over
the pool. -/
def money_for_purchases (available : List PlayerRec) (tin : Nat → Bool) : ℚ :=
  (available.map (fun p => if tin p.id then p.price else 0)).sum

/-- The conjunction of all constraints `optimize_transfers` adds to the LP
(lines 56-102 of `transfer_optimizer.py`), read on a binary assignment:
selection/transfer linkage, equal transfer counts, the budget constraint
(with the unclamped penalty of lines 47-49), squad size 15, the position
quotas, and at most 3 selected players per club present in the pool. -/
def Feasible (current_team available : List PlayerRec) (budget : ℚ)
    (free_transfers : Nat) (transfer_cost : ℚ) (r : LpResult) : Prop :=
  (∀ p ∈ available,
      (p.id ∈ current_ids current_team →
        (r.sel p.id = !r.tout p.id ∧ r.tin p.id = false)) ∧
      (p.id ∉ current_ids current_team → r.sel p.id = r.tin p.id)) ∧
  available.countP (fun p => r.tin p.id) =
    current_team.countP (fun p => r.tout p.id) ∧
  money_for_purchases available r.tin - money_from_sales current_team r.tout +
    transfer_cost_penalty available free_transfers transfer_cost r.tin ≤ budget ∧
  available.countP (fun p => r.sel p.id) = 15 ∧
  (∀ pc ∈ positions,
      (available.filter (fun p => p.position == pc.1)).countP
        (fun p => r.sel p.id) = pc.2) ∧
  (∀ t ∈ available.map (·.team_id),
      (available.filter (fun p => p.team_id == t)).countP
        (fun p => r.sel p.id) ≤ 3)

/-- The result dictionary returned by `optimize_transfers` on the success
path (lines 110-124): the three filtered lists, the reported transfer cost
(this one IS clamped at zero, line 115), the expected-points total, and the
remaining budget. -/
structure TransferPlan where
  selected_team : List PlayerRec
  transfers_in : List PlayerRec
  transfers_out : List PlayerRec
  transfer_cost : ℚ
  total_expected_points : ℚ
  remaining_budget : ℚ
deriving DecidableEq, Repr

/-- Result extraction of `optimize_transfers` (lines 110-124). -/
def extract_plan (current_team available : List PlayerRec) (budget : ℚ)
    (free_transfers : Nat) (transfer_cost : ℚ) (r : LpResult) : TransferPlan :=
  let selected_team := available.filter (fun p => r.sel p.id)
  let transfers_in := available.filter (fun p => r.tin p.id)
  let transfers_out := current_team.filter (fun p => r.tout p.id)
  let total_transfer_cost :=
    max 0 ((transfers_in.length : ℚ) - free_transfers) * transfer_cost
  { selected_team := selected_team
    transfers_in := transfers_in
    transfers_out := transfers_out
    transfer_cost := total_transfer_cost
    total_expected_points := (selected_team.map (·.expected_points)).sum
    remaining_budget := budget - total_transfer_cost }

/-- `TransferOptimizer.optimize_transfers`, with the solver call abstracted
by `r`: if the solver did not report optimal it raises
`Exception("Optimization failed to find optimal solution")` (lines 107-108),
otherwise it returns the extracted plan. -/
def optimize_transfers (current_team available : List PlayerRec) (budget : ℚ)
    (gameweeks_ahead : Nat) (transfer_cost : ℚ) (free_transfers : Nat)
    (r : LpResult) : Except String TransferPlan :=
  if r.optimal then
    Except.ok (extract_plan current_team available budget free_transfers
      transfer_cost r)
  else
    Except.error "Optimization failed to find optimal solution"

/-- The LP objective of lines 51-54: selected expected points times
`gameweeks_ahead`, minus the (unclamped) transfer-cost penalty. -/
def lp_objective (available : List PlayerRec) (gameweeks_ahead : Nat)
    (free_transfers : Nat) (transfer_cost : ℚ) (sel tin : Nat → Bool) : ℚ :=
  (available.map
    (fun p => if sel p.id then p.expected_points * (gameweeks_ahead : ℚ) else 0)).sum -
    transfer_cost_penalty available free_transfers transfer_cost tin

/-- The penalty as the specification words it: `max(0, transfersMade −
freeTransfers) × transferCostPerExtra`.  Stated separately (from the
specification text, matching the reporting line 115 of the source) to
compare against the `transfer_cost_penalty` the LP actually charges. -/
def spec_transfer_penalty (transfers_made free_transfers : Nat)
    (transfer_cost : ℚ) : ℚ :=
  max 0 ((transfers_made : ℚ) - free_transfers) * transfer_cost

/-- `TransferOptimizer.optimize_wildcard` (lines 131-167): solves the
wildcard model and, WITHOUT inspecting `prob.status`, returns the players
whose selection variable is 1. -/
def optimize_wildcard (available : List PlayerRec) (budget : ℚ)
    (r : LpResult) : List PlayerRec :=
  available.filter (fun p => r.sel p.id)

/-- The caller `run_enhanced_optimizer` (lines 171-217): invokes the engine
with budget 100.0, 3 gameweeks ahead, transfer cost 4.0 and one free
transfer; on an engine exception it falls back to `optimize_wildcard`.
The two solver calls are abstracted by `r` and `wres`. -/
def run_enhanced_optimizer (current_team available : List PlayerRec)
    (r wres : LpResult) : Sum TransferPlan (List PlayerRec) :=
  match optimize_transfers current_team available 100 3 4 1 r with
  | Except.ok plan => Sum.inl plan
  | Except.error _ => Sum.inr (optimize_wildcard available 100 wres)

/-! ## Advisors (`src/optimizer/advisors.py`) -/

/-- Semantics of a Python division `a / b`: raises `ZeroDivisionError` when
the denominator is zero. -/
def pydiv (a b : ℚ) : Except String ℚ :=
  if b = 0 then Except.error "ZeroDivisionError" else Except.ok (a / b)

/-- Semantics of `statistics.mean`: raises `StatisticsError` on an empty
sequence, otherwise returns the exact arithmetic mean. -/
def pymean (l : List ℚ) : Except String ℚ :=
  if l.length = 0 then Except.error "StatisticsError"
  else Except.ok (l.sum / l.length)

/-- Python `round` to `d = 2` digits rounds ties to the even last digit
(bankers rounding); this is that tie rule on an integer-scaled rational. -/
def roundHalfEven (x : ℚ) : ℤ :=
  if x - (⌊x⌋ : ℚ) = 1 / 2 then (if ⌊x⌋ % 2 = 0 then ⌊x⌋ else ⌊x⌋ + 1)
  else round x

/-- `round(x, 2)` of the source, idealized to exact rationals. -/
def round2 (x : ℚ) : ℚ := (roundHalfEven (x * 100) : ℚ) / 100

/-- `CaptainAdvisor.position_weights` (lines 19-25 of `advisors.py`).
Faithfulness notes: in the source each value is the singleton SET
`{1.2}` etc., and the keys are the strings "4"/"3"/"2"/"1" even though
every player dictionary carries its position as "GK"/"DEF"/"MID"/"FWD"
(see `data_utils.py`), so the lookup in `_calculate_captain_score` never
hits and the default 1.0 is always used for real squad data. -/
def position_weights : List (String × ℚ) :=
  [("4", 6 / 5), ("3", 11 / 10), ("2", 9 / 10), ("1", 3 / 10)]

/-- `self.position_weights.get(player['position'], 1.0)` (line 80). -/
def position_multiplier (position : String) : ℚ :=
  (position_weights.lookup position).getD 1

/-- `_get_fixture_score` (lines 101-118): 0 when the gameweek has no
fixture for the club; otherwise `(6 - difficulty) * 0.06` where
`difficulty = getattr(fixture, 'difficulty', 3)` — and the `Fixture` model
(`models/fixture.py`) has no `difficulty` attribute, so the default 3
always applies and the bonus is 0.18. -/
def fixture_score (has_fixture : Bool) : ℚ :=
  if has_fixture then (6 - 3) * (6 / 100) else 0

/-- `_get_home_advantage` (lines 189-197): 0.1 for a home fixture, else 0. -/
def home_advantage (has_home_fixture : Bool) : ℚ :=
  if has_home_fixture then 1 / 10 else 0

/-- The final clamp of `_get_historical_performance` (line 234):
`max(0.0, min(0.15, performance_bonus))`. -/
def history_bonus_clamp (performance_bonus : ℚ) : ℚ :=
  max 0 (min (3 / 20) performance_bonus)

/-- `_calculate_linear_slope` (lines 169-185).  Every Python expression
that can raise (the two `statistics.mean` calls and the final division) is
routed through its faulting semantics; the source guards them with the
`n < 2` early return and the `denominator == 0` check. -/
def calculate_linear_slope (points_sequence : List ℚ) : Except String ℚ :=
  if points_sequence.length < 2 then Except.ok 0
  else
    let x_values := (List.range points_sequence.length).map (Nat.cast : ℕ → ℚ)
    do
    let x_mean ← pymean x_values
    let y_mean ← pymean points_sequence
    let numerator :=
      ((x_values.zip points_sequence).map
        (fun q => (q.1 - x_mean) * (q.2 - y_mean))).sum
    let denominator := (x_values.map (fun x => (x - x_mean) ^ 2)).sum
    if denominator = 0 then pure 0 else pydiv numerator denominator

/-- The recency weight list `[1, 1.2, 1.4, 1.6, 2.0]` of line 156. -/
def trend_weights : List ℚ := [1, 6 / 5, 7 / 5, 8 / 5, 2]

/-- `_calculate_trend_score` (lines 144-167): 0 for fewer than 3 entries,
otherwise 70% linear-regression slope plus 30% of (recency-weighted
average minus plain average), scaled by 0.05.  `weights[-len(points):]`
keeps the last `len(points)` weights when the sequence is shorter than 5;
`zip` truncates to the shorter list. -/
def calculate_trend_score (points_sequence : List ℚ) : Except String ℚ :=
  if points_sequence.length < 3 then Except.ok 0
  else do
    let slope ← calculate_linear_slope points_sequence
    let weights :=
      if trend_weights.length > points_sequence.length then
        trend_weights.drop (trend_weights.length - points_sequence.length)
      else trend_weights
    let weighted_avg ←
      pydiv ((points_sequence.zip weights).map (fun q => q.1 * q.2)).sum
        weights.sum
    let overall_avg ← pymean points_sequence
    pure ((slope * (7 / 10) + (weighted_avg - overall_avg) * (3 / 10)) *
      (5 / 100))

/-- `_get_form_trend` (lines 120-142), taking the chronologically ordered
recent points (the source reverses the gameweek-descending query result;
at most 5 entries are queried).  The whole body sits in a `try` whose
handler returns 0.0; fewer than 3 entries return exactly 0; otherwise the
trend score is clamped to `[-0.2, 0.2]`. -/
def get_form_trend (recent_points : List ℚ) : ℚ :=
  if recent_points.length < 3 then 0
  else
    match calculate_trend_score recent_points with
    | Except.ok trend => max (-(1 / 5)) (min (1 / 5) trend)
    | Except.error _ => 0

/-- `_calculate_captain_score` (lines 65-99) as a function of the values
its five database-backed helpers produce.  `weekly_stats = none` models a
missing `PlayerGameweekStats` row (early return 0.0); `some none` models a
row whose `expected_points` is `None` (the `or 0.0` fallback). -/
def calculate_captain_score (weekly_stats : Option (Option ℚ))
    (position : String) (fixture form home history : ℚ) : ℚ :=
  match weekly_stats with
  | none => 0
  | some expected_points =>
    let base_score := expected_points.getD 0
    round2 (base_score * position_multiplier position *
      (1 + fixture + form + home + history))

/-- One entry of the `performances` dictionaries consumed by
`_calculate_recency_bonus` (only the fields it reads). -/
structure PerfRec where
  gameweek : Nat
  points : ℚ
deriving DecidableEq, Repr

/-- `_calculate_recency_bonus` (lines 314-347): empty input returns 0;
otherwise the last 5 meetings (sorted by gameweek, most recent first,
Python `sorted` being stable) are weighted `1/(i+1)` and the weighted
average is bucketed; the division is guarded by the `total_weight == 0`
check. -/
def calculate_recency_bonus (performances : List PerfRec) : Except String ℚ :=
  if performances.length = 0 then Except.ok 0
  else
    let sorted_performances :=
      List.insertionSort (fun a b => b.gameweek ≤ a.gameweek) performances
    let pairs := (sorted_performances.take 5).enum
    let weighted_score :=
      (pairs.map (fun q => q.2.points * (1 / ((q.1 : ℚ) + 1)))).sum
    let total_weight := (pairs.map (fun q => (1 : ℚ) / ((q.1 : ℚ) + 1))).sum
    if total_weight = 0 then Except.ok 0
    else do
      let weighted_avg ← pydiv weighted_score total_weight
      pure (if 8 ≤ weighted_avg then 3 / 100
        else if 6 ≤ weighted_avg then 2 / 100
        else if 4 ≤ weighted_avg then 1 / 100
        else 0)

/-- `ChipAdvisor._calculate_team_value_efficiency` (lines 626-630): the
division by `total_price * 0.5` is NOT guarded in the source, so an empty
squad (or one of total price zero) raises `ZeroDivisionError`. -/
def calculate_team_value_efficiency (team : List PlayerRec) :
    Except String ℚ :=
  let total_price := (team.map (·.price)).sum
  let total_expected := (team.map (·.expected_points)).sum
  do
    let q ← pydiv total_expected (total_price * (5 / 10))
    pure (min 1 q)

/-- The `points_per_million = player['expected_points'] / player['price']`
ratio of `_identify_longterm_transfers` (line 869): unguarded division. -/
def points_per_million (p : PlayerRec) : Except String ℚ :=
  pydiv p.expected_points p.price

/-- A pool-player dictionary as read by `TransferAdvisor`: besides the
`data_utils` keys it reads `player.get('price_change', 0)` and
`player.get('form', 0)`, whose effective values (default 0 when the key is
absent) are carried as fields. -/
structure PoolPlayer where
  id : Nat
  price_change : ℚ
  expected_points : ℚ
  form : ℚ
  team_id : Nat
deriving DecidableEq, Repr

/-- The cumulative `value_score` accumulated by
`_identify_value_transfers` (lines 813-838): price rising (> 0.1) adds 2;
the fixture-run average (a database computation, abstracted as
`fixture_run` applied to the team id) adds 3 above 0.3 and otherwise 1
above 0.15; expected points above 7 add 2; form above 6 adds 1. -/
def value_signal_score (fixture_run : Nat → ℚ) (p : PoolPlayer) : Nat :=
  (if 1 / 10 < p.price_change then 2 else 0) +
  (if 3 / 10 < fixture_run p.team_id then 3
    else if 3 / 20 < fixture_run p.team_id then 1 else 0) +
  (if 7 < p.expected_points then 2 else 0) +
  (if 6 < p.form then 1 else 0)

/-- The `value_transfers` accumulator of `_identify_value_transfers`
before sorting/truncation: pool players outside the current squad whose
value score exceeds 2, paired with that score, in pool order. -/
def value_transfer_candidates (fixture_run : Nat → ℚ)
    (current_team available : List PoolPlayer) : List (PoolPlayer × Nat) :=
  (available.filter (fun p =>
      decide (p.id ∉ current_team.map (·.id)) &&
      decide (2 < value_signal_score fixture_run p))).map
    (fun p => (p, value_signal_score fixture_run p))

/-- `TransferAdvisor._identify_value_transfers` (lines 802-847): the
accumulated candidates sorted by value score descending (Python `sorted`
with `reverse=True` is stable, as is insertion sort) truncated to the
first 10. -/
def identify_value_transfers (fixture_run : Nat → ℚ)
    (current_team available : List PoolPlayer) : List (PoolPlayer × Nat) :=
  (List.insertionSort (fun a b => b.2 ≤ a.2)
    (value_transfer_candidates fixture_run current_team available)).take 10

/-- The record returned by `CaptainAdvisor.suggest_captain` on success:
entries of the sorted score list (player paired with score; the `reasons`
field is informational text and not modelled). -/
structure CaptainSuggestion where
  captain : PlayerRec × ℚ
  vice_captain : PlayerRec × ℚ
  alternatives : List (PlayerRec × ℚ)
deriving DecidableEq, Repr

/-- `CaptainAdvisor.suggest_captain` (lines 37-63), with the per-player
score (a database computation) abstracted as `score`.  The score list is
sorted descending (stably) and the source then unconditionally indexes
`captain_scores[0]` and `captain_scores[1]` — an `IndexError` for a team
of fewer than 2 players — while `alternatives` is the total slice `[2:5]`. -/
def suggest_captain (score : PlayerRec → ℚ) (team : List PlayerRec) :
    Except String CaptainSuggestion :=
  let captain_scores := team.map (fun p => (p, score p))
  let sorted_scores :=
    List.insertionSort (fun a b => b.2 ≤ a.2) captain_scores
  match sorted_scores with
  | c :: v :: _ =>
    Except.ok
      { captain := c
        vice_captain := v
        alternatives := (sorted_scores.drop 2).take 3 }
  | _ => Except.error "IndexError"

/-! ## Shared lemmas -/

instance {α β : Type} [LinearOrder β] : IsTrans (α × β) (fun a b => b.2 ≤ a.2) :=
  ⟨fun _ _ _ h1 h2 => le_trans h2 h1⟩

instance {α β : Type} [LinearOrder β] : IsTotal (α × β) (fun a b => b.2 ≤ a.2) :=
  ⟨fun a b => le_total b.2 a.2⟩

lemma sum_map_ite {α : Type} (l : List α) (b : α → Bool) (f : α → ℚ) :
    (l.map (fun a => if b a then f a else 0)).sum = ((l.filter b).map f).sum := by
  induction l with
  | nil => rfl
  | cons x xs ih =>
    by_cases hx : b x
    · simp [List.filter_cons, hx, ih]
    · simp [List.filter_cons, hx, ih]

lemma filter_swap {α : Type} (p q : α → Bool) (l : List α) :
    (l.filter p).filter q = (l.filter q).filter p := by
  simp only [List.filter_filter]
  exact List.filter_congr (fun a _ => by rw [Bool.and_comm])

lemma length_filter_countP {α : Type} (p : α → Bool) (l : List α) :
    (l.filter p).length = l.countP p :=
  (List.countP_eq_length_filter p l).symm

lemma roundHalfEven_le (x : ℚ) : (roundHalfEven x : ℚ) ≤ x + 1 / 2 := by
  unfold roundHalfEven
  split
  · rename_i h
    split
    · linarith [h]
    · push_cast
      linarith [h]
  · have h := abs_sub_round x
    rw [abs_le] at h
    linarith [h.1]

lemma le_roundHalfEven (x : ℚ) : x - 1 / 2 ≤ (roundHalfEven x : ℚ) := by
  unfold roundHalfEven
  split
  · rename_i h
    split
    · linarith [h]
    · push_cast
      linarith [h]
  · have h := abs_sub_round x
    rw [abs_le] at h
    linarith [h.2]

lemma roundHalfEven_mono {x y : ℚ} (h : x ≤ y) :
    roundHalfEven x ≤ roundHalfEven y := by
  by_contra hc
  push_neg at hc
  have hc1 : (roundHalfEven y : ℚ) + 1 ≤ (roundHalfEven x : ℚ) := by
    exact_mod_cast Int.add_one_le_of_lt hc
  have hx_le := roundHalfEven_le x
  have hy_ge := le_roundHalfEven y
  have hy_eq : (roundHalfEven y : ℚ) = y - 1 / 2 := by linarith
  have hx_eq : (roundHalfEven x : ℚ) = x + 1 / 2 := by
    have := le_roundHalfEven x
    linarith
  have hxy : x = y := by linarith
  -- y sits exactly half-way above the integer roundHalfEven y
  have hfy : ⌊y⌋ = roundHalfEven y := by
    rw [Int.floor_eq_iff]
    constructor
    · linarith
    · linarith
  have hty : y - (⌊y⌋ : ℚ) = 1 / 2 := by
    rw [hfy]
    linarith
  have hfx : ⌊x⌋ = ⌊y⌋ := by rw [hxy]
  have htx : x - (⌊x⌋ : ℚ) = 1 / 2 := by
    rw [hfx, hxy]
    exact hty
  -- in the tie branch roundHalfEven y is ⌊y⌋, forcing ⌊y⌋ even
  have hyv : roundHalfEven y = if ⌊y⌋ % 2 = 0 then ⌊y⌋ else ⌊y⌋ + 1 := by
    unfold roundHalfEven
    rw [if_pos hty]
  have hyeven : ⌊y⌋ % 2 = 0 := by
    by_contra hodd
    rw [hyv, if_neg hodd] at hfy
    omega
  -- in the tie branch roundHalfEven x is ⌊x⌋ + 1, forcing ⌊x⌋ odd
  have hxv : roundHalfEven x = if ⌊x⌋ % 2 = 0 then ⌊x⌋ else ⌊x⌋ + 1 := by
    unfold roundHalfEven
    rw [if_pos htx]
  have hfx2 : (⌊x⌋ : ℚ) = (roundHalfEven x : ℚ) - 1 := by
    rw [hx_eq]
    linarith [htx]
  have hfx3 : ⌊x⌋ = roundHalfEven x - 1 := by exact_mod_cast hfx2
  have hxodd : ¬ ⌊x⌋ % 2 = 0 := by
    intro heq
    rw [hxv, if_pos heq] at hfx3
    omega
  rw [hfx, hyeven] at hxodd
  exact hxodd rfl

lemma round2_mono {x y : ℚ} (h : x ≤ y) : round2 x ≤ round2 y := by
  unfold round2
  have h100 : x * 100 ≤ y * 100 := by nlinarith
  have := roundHalfEven_mono h100
  have hc : (roundHalfEven (x * 100) : ℚ) ≤ (roundHalfEven (y * 100) : ℚ) := by
    exact_mod_cast this
  linarith

lemma position_multiplier_nonneg (s : String) : 0 ≤ position_multiplier s := by
  unfold position_multiplier position_weights
  simp only [List.lookup]
  split <;> try norm_num
  split <;> try norm_num
  split <;> try norm_num
  split <;> norm_num

lemma get_form_trend_lb (pts : List ℚ) : -(1 / 5) ≤ get_form_trend pts := by
  unfold get_form_trend
  split
  · norm_num
  · split
    · exact le_max_left _ _
    · norm_num

lemma get_form_trend_ub (pts : List ℚ) : get_form_trend pts ≤ 1 / 5 := by
  unfold get_form_trend
  split
  · norm_num
  · split
    · exact max_le (by norm_num) (min_le_left _ _)
    · norm_num

lemma fixture_score_nonneg (b : Bool) : 0 ≤ fixture_score b := by
  unfold fixture_score
  split <;> norm_num

lemma home_advantage_nonneg (b : Bool) : 0 ≤ home_advantage b := by
  unfold home_advantage
  split <;> norm_num

lemma history_bonus_clamp_nonneg (q : ℚ) : 0 ≤ history_bonus_clamp q :=
  le_max_left _ _

/-! ## Concrete witness data -/

/-- A 15-player squad satisfying all squad-composition rules: positions
2/5/5/3 and three players from each of five clubs, each priced 5.0 with
5.0 expected points. -/
def wPlayers : List PlayerRec :=
  [⟨1, "p1", "GK", 5, 5, 1⟩, ⟨2, "p2", "GK", 5, 5, 1⟩,
   ⟨3, "p3", "DEF", 5, 5, 1⟩, ⟨4, "p4", "DEF", 5, 5, 2⟩,
   ⟨5, "p5", "DEF", 5, 5, 2⟩, ⟨6, "p6", "DEF", 5, 5, 2⟩,
   ⟨7, "p7", "DEF", 5, 5, 3⟩, ⟨8, "p8", "MID", 5, 5, 3⟩,
   ⟨9, "p9", "MID", 5, 5, 3⟩, ⟨10, "p10", "MID", 5, 5, 4⟩,
   ⟨11, "p11", "MID", 5, 5, 4⟩, ⟨12, "p12", "MID", 5, 5, 4⟩,
   ⟨13, "p13", "FWD", 5, 5, 5⟩, ⟨14, "p14", "FWD", 5, 5, 5⟩,
   ⟨15, "p15", "FWD", 5, 5, 5⟩]

/-- A solver outcome that reports optimal and keeps the whole current
squad (no transfers). -/
def wRes : LpResult :=
  ⟨true, fun _ => true, fun _ => false, fun _ => false⟩

/-- A solver outcome for an infeasible model: PuLP leaves every binary
variable at 0 and the status is not optimal. -/
def wFailRes : LpResult :=
  ⟨false, fun _ => false, fun _ => false, fun _ => false⟩

/-! ## Claim theorems -/

/-- C1: whenever `optimize_transfers` returns successfully and the solver
assignment satisfies the embedded LP constraints, the returned plan
simultaneously has a 15-player squad, exact position counts 2/5/5/3, at
most 3 players per club, purchases minus sales plus the charged
transfer-cost penalty within budget, and equally many transfers in and
out. -/
theorem optimize_transfers_postconditions (current_team available : List PlayerRec)
    (budget : ℚ) (gameweeks_ahead : Nat) (transfer_cost : ℚ) (free_transfers : Nat)
    (r : LpResult)
    (hfeas : Feasible current_team available budget free_transfers transfer_cost r) :
    ∀ plan, optimize_transfers current_team available budget gameweeks_ahead
        transfer_cost free_transfers r = Except.ok plan →
      plan.selected_team.length = 15 ∧
      (∀ pc ∈ positions,
        (plan.selected_team.filter (fun p => p.position == pc.1)).length = pc.2) ∧
      (∀ t : Nat,
        (plan.selected_team.filter (fun p => p.team_id == t)).length ≤ 3) ∧
      (plan.transfers_in.map (·.price)).sum -
          (plan.transfers_out.map get_selling_price).sum +
          ((plan.transfers_in.length : ℚ) - free_transfers) * transfer_cost ≤
        budget ∧
      plan.transfers_in.length = plan.transfers_out.length := by
  intro plan hplan
  obtain ⟨hlink, hcnt, hbudget, hsize, hpos, hclub⟩ := hfeas
  have hplan2 : plan = extract_plan current_team available budget free_transfers
      transfer_cost r := by
    unfold optimize_transfers at hplan
    split at hplan
    · exact (Except.ok.injEq _ _ ▸ hplan).symm
    · exact absurd hplan (by simp)
  subst hplan2
  simp only [extract_plan]
  refine ⟨?_, ?_, ?_, ?_, ?_⟩
  · rw [length_filter_countP]
    exact hsize
  · intro pc hpc
    rw [filter_swap, length_filter_countP]
    exact hpos pc hpc
  · intro t
    by_cases ht : t ∈ available.map (·.team_id)
    · rw [filter_swap, length_filter_countP]
      exact hclub t ht
    · have hnil : (available.filter (fun p => r.sel p.id)).filter
          (fun p => p.team_id == t) = [] := by
        apply List.filter_eq_nil_iff.mpr
        intro a ha
        have ha2 : a ∈ available := List.mem_of_mem_filter ha
        intro hbeq
        exact ht (List.mem_map.mpr ⟨a, ha2, by simpa using hbeq⟩)
      rw [hnil]
      simp
  · have hp : (( available.filter (fun p => r.tin p.id)).map (·.price)).sum =
        money_for_purchases available r.tin := by
      unfold money_for_purchases
      rw [sum_map_ite]
    have hs : ((current_team.filter (fun p => r.tout p.id)).map get_selling_price).sum =
        money_from_sales current_team r.tout := by
      unfold money_from_sales
      rw [sum_map_ite]
    have hpen : (((available.filter (fun p => r.tin p.id)).length : ℚ) - free_transfers) *
        transfer_cost =
        transfer_cost_penalty available free_transfers transfer_cost r.tin := by
      unfold transfer_cost_penalty total_transfers
      rw [length_filter_countP]
    rw [hp, hs, hpen]
    exact hbudget
  · rw [length_filter_countP, length_filter_countP]
    exact hcnt

/-- Witness: a concrete optimal no-transfer outcome on a quota-conforming
15-player squad satisfies the feasibility hypothesis and all five
postconditions. -/
theorem optimize_transfers_postconditions_witness :
    Feasible wPlayers wPlayers 100 1 4 wRes ∧
    ((extract_plan wPlayers wPlayers 100 1 4 wRes).selected_team.length = 15 ∧
      (∀ pc ∈ positions,
        ((extract_plan wPlayers wPlayers 100 1 4 wRes).selected_team.filter
          (fun p => p.position == pc.1)).length = pc.2) ∧
      (∀ t : Nat,
        ((extract_plan wPlayers wPlayers 100 1 4 wRes).selected_team.filter
          (fun p => p.team_id == t)).length ≤ 3) ∧
      (((extract_plan wPlayers wPlayers 100 1 4 wRes).transfers_in.map (·.price)).sum -
          (((extract_plan wPlayers wPlayers 100 1 4 wRes).transfers_out.map
            get_selling_price)).sum +
          (((extract_plan wPlayers wPlayers 100 1 4 wRes).transfers_in.length : ℚ) - 1) * 4 ≤
        100) ∧
      (extract_plan wPlayers wPlayers 100 1 4 wRes).transfers_in.length =
        (extract_plan wPlayers wPlayers 100 1 4 wRes).transfers_out.length) := by
  have hfeas : Feasible wPlayers wPlayers 100 1 4 wRes := by
    refine ⟨?_, ?_, ?_, ?_, ?_, ?_⟩
    · decide
    · decide
    · show money_for_purchases wPlayers (fun _ => false) -
          money_from_sales wPlayers (fun _ => false) +
          transfer_cost_penalty wPlayers 1 4 (fun _ => false) ≤ 100
      norm_num [money_for_purchases, money_from_sales, transfer_cost_penalty,
        total_transfers, get_selling_price, wPlayers,
        List.countP_cons, List.countP_nil]
    · decide
    · decide
    · decide
  exact ⟨hfeas,
    optimize_transfers_postconditions wPlayers wPlayers 100 1 4 1 wRes hfeas
      (extract_plan wPlayers wPlayers 100 1 4 wRes) rfl⟩

/-- C2 (code-bug evidence): with one free transfer, transfer cost 4 and
zero transfers made, the penalty the LP charges in the objective and in
the budget constraint is −4 — a positive objective bonus and a budget
relaxation — while the specified (and reported, line 115) penalty
`max(0, transfersMade − freeTransfers) × transferCostPerExtra` is 0: the
total expected points of the witness squad is 75, yet the LP objective
evaluates to 79. -/
theorem lp_penalty_unclamped :
    transfer_cost_penalty wPlayers 1 4 (fun _ => false) = -4 ∧
    spec_transfer_penalty 0 1 4 = 0 ∧
    lp_objective wPlayers 1 1 4 (fun _ => true) (fun _ => false) = 79 ∧
    ((wPlayers.map (fun p => if (fun _ => true) p.id then
        p.expected_points * ((1 : Nat) : ℚ) else 0)).sum = 75) ∧
    money_for_purchases wPlayers (fun _ => false) -
        money_from_sales wPlayers (fun _ => false) +
        transfer_cost_penalty wPlayers 1 4 (fun _ => false) = -4 := by
  refine ⟨?_, ?_, ?_, ?_, ?_⟩
  · norm_num [transfer_cost_penalty, total_transfers, wPlayers,
      List.countP_cons, List.countP_nil]
  · norm_num [spec_transfer_penalty, max_def]
  · norm_num [lp_objective, transfer_cost_penalty, total_transfers, wPlayers,
      List.countP_cons, List.countP_nil]
  · norm_num [wPlayers]
  · norm_num [money_for_purchases, money_from_sales, transfer_cost_penalty,
      total_transfers, get_selling_price, wPlayers,
      List.countP_cons, List.countP_nil]

/-- C3: the engine signals failure exactly when the solver status is not
optimal, returns exactly the extracted plan otherwise (no partial plan on
the error path), and the wildcard fallback is taken by the caller
`run_enhanced_optimizer` exactly on the engine error. -/
theorem optimize_transfers_failure_iff (current_team available : List PlayerRec)
    (budget : ℚ) (gameweeks_ahead : Nat) (transfer_cost : ℚ) (free_transfers : Nat)
    (r wres : LpResult) :
    ((∃ e, optimize_transfers current_team available budget gameweeks_ahead
        transfer_cost free_transfers r = Except.error e) ↔ r.optimal = false) ∧
    ((optimize_transfers current_team available budget gameweeks_ahead
        transfer_cost free_transfers r =
      Except.ok (extract_plan current_team available budget free_transfers
        transfer_cost r)) ↔ r.optimal = true) ∧
    ((run_enhanced_optimizer current_team available r wres =
      Sum.inr (optimize_wildcard available 100 wres)) ↔ r.optimal = false) ∧
    ((run_enhanced_optimizer current_team available r wres =
      Sum.inl (extract_plan current_team available 100 1 4 r)) ↔ r.optimal = true) := by
  cases hr : r.optimal <;>
    simp [optimize_transfers, run_enhanced_optimizer, hr]

/-- C10: `optimize_wildcard` never signals failure — it is insensitive to
the solver status and returns exactly the players whose selection variable
is 1; on the all-zero assignment a solver leaves behind for an infeasible
model it returns the empty list, which has neither 15 players nor the GK
quota, whereas `optimize_transfers` raises on the same outcome. -/
theorem optimize_wildcard_ignores_status (available : List PlayerRec)
    (budget : ℚ) (r : LpResult) :
    optimize_wildcard available budget r =
      available.filter (fun p => r.sel p.id) ∧
    optimize_wildcard available budget ⟨!r.optimal, r.sel, r.tin, r.tout⟩ =
      optimize_wildcard available budget r ∧
    optimize_wildcard wPlayers 100 wFailRes = [] ∧
    (optimize_wildcard wPlayers 100 wFailRes).length ≠ 15 ∧
    ((optimize_wildcard wPlayers 100 wFailRes).filter
      (fun p => p.position == "GK")).length ≠ 2 ∧
    optimize_transfers wPlayers wPlayers 100 1 4 1 wFailRes =
      Except.error "Optimization failed to find optimal solution" := by
  have h0 : optimize_wildcard wPlayers 100 wFailRes = [] := rfl
  refine ⟨rfl, rfl, h0, ?_, ?_, rfl⟩
  · rw [h0]
    decide
  · rw [h0]
    decide

/-- C4 (code-bug evidence): for the position strings real player data
carries, the `position_weights` lookup of `_calculate_captain_score`
always misses (its keys are "4"/"3"/"2"/"1") and the default multiplier
1.0 applies to every position, so two players identical except for
position — here a forward and a goalkeeper with positive base score 5 —
receive exactly the same captain score instead of the forward scoring
strictly higher. -/
theorem position_weight_lookup_misses :
    position_multiplier "FWD" = 1 ∧ position_multiplier "MID" = 1 ∧
    position_multiplier "DEF" = 1 ∧ position_multiplier "GK" = 1 ∧
    calculate_captain_score (some (some 5)) "FWD" (fixture_score true) 0
        (home_advantage true) 0 =
      calculate_captain_score (some (some 5)) "GK" (fixture_score true) 0
        (home_advantage true) 0 ∧
    ¬ calculate_captain_score (some (some 5)) "GK" (fixture_score true) 0
        (home_advantage true) 0 <
      calculate_captain_score (some (some 5)) "FWD" (fixture_score true) 0
        (home_advantage true) 0 := by
  have heq : calculate_captain_score (some (some 5)) "FWD" (fixture_score true) 0
      (home_advantage true) 0 =
      calculate_captain_score (some (some 5)) "GK" (fixture_score true) 0
      (home_advantage true) 0 := rfl
  exact ⟨rfl, rfl, rfl, rfl, heq, by rw [heq]; exact lt_irrefl _⟩

/-- C5: the captain score is monotonically non-decreasing in the
expected-points input when the other four factors are held fixed at any
values their helpers can produce (the position multiplier is non-negative
and the bracket `1 + fixture + form + home + history` is bounded below by
`1 − 0.2 > 0`, and rounding to two decimals is monotone). -/
theorem captain_score_monotone (position : String) (has_fixture has_home : Bool)
    (recent_points : List ℚ) (performance_bonus : ℚ) (e1 e2 : ℚ) (h : e1 ≤ e2) :
    calculate_captain_score (some (some e1)) position (fixture_score has_fixture)
        (get_form_trend recent_points) (home_advantage has_home)
        (history_bonus_clamp performance_bonus) ≤
      calculate_captain_score (some (some e2)) position (fixture_score has_fixture)
        (get_form_trend recent_points) (home_advantage has_home)
        (history_bonus_clamp performance_bonus) := by
  unfold calculate_captain_score
  simp only [Option.getD_some]
  apply round2_mono
  have hm := position_multiplier_nonneg position
  have hbr : 0 ≤ 1 + fixture_score has_fixture + get_form_trend recent_points +
      home_advantage has_home + history_bonus_clamp performance_bonus := by
    have h1 := fixture_score_nonneg has_fixture
    have h2 := get_form_trend_lb recent_points
    have h3 := home_advantage_nonneg has_home
    have h4 := history_bonus_clamp_nonneg performance_bonus
    linarith
  exact mul_le_mul_of_nonneg_right (mul_le_mul_of_nonneg_right h hm) hbr

/-- Witness for the monotonicity theorem at a concrete input. -/
theorem captain_score_monotone_witness :
    (1 : ℚ) ≤ 2 ∧
    calculate_captain_score (some (some 1)) "MID" (fixture_score true)
        (get_form_trend []) (home_advantage true) (history_bonus_clamp 0) ≤
      calculate_captain_score (some (some 2)) "MID" (fixture_score true)
        (get_form_trend []) (home_advantage true) (history_bonus_clamp 0) :=
  ⟨by norm_num, captain_score_monotone "MID" true true [] 0 1 2 (by norm_num)⟩

/-- C6: the form trend is exactly 0 below 3 historical entries, clamped to
`[-0.2, 0.2]` for 3 or more entries, strictly positive on the improving
sequence `[2,4,6,8,10]` and strictly negative on the declining sequence
`[10,8,6,4,2]`. -/
theorem form_trend_spec (qs pts : List ℚ) (hq : qs.length < 3)
    (hp : 3 ≤ pts.length) :
    get_form_trend qs = 0 ∧
    (3 ≤ pts.length ∧ -(1 / 5) ≤ get_form_trend pts ∧ get_form_trend pts ≤ 1 / 5) ∧
    0 < get_form_trend [2, 4, 6, 8, 10] ∧
    get_form_trend [10, 8, 6, 4, 2] < 0 := by
  refine ⟨?_, ⟨hp, get_form_trend_lb pts, get_form_trend_ub pts⟩, ?_, ?_⟩
  · unfold get_form_trend
    rw [if_pos hq]
  · norm_num [get_form_trend, calculate_trend_score, calculate_linear_slope,
      trend_weights, pymean, pydiv, List.range_succ, Except.instMonad,
      Except.bind, Except.pure, max_def, min_def]
  · norm_num [get_form_trend, calculate_trend_score, calculate_linear_slope,
      trend_weights, pymean, pydiv, List.range_succ, Except.instMonad,
      Except.bind, Except.pure, max_def, min_def]

/-- Witness for the form-trend theorem at concrete inputs. -/
theorem form_trend_spec_witness :
    ([] : List ℚ).length < 3 ∧ 3 ≤ ([0, 0, 0] : List ℚ).length ∧
    (get_form_trend [] = 0 ∧
      (3 ≤ ([0, 0, 0] : List ℚ).length ∧
        -(1 / 5) ≤ get_form_trend [0, 0, 0] ∧ get_form_trend [0, 0, 0] ≤ 1 / 5) ∧
      0 < get_form_trend [2, 4, 6, 8, 10] ∧
      get_form_trend [10, 8, 6, 4, 2] < 0) :=
  ⟨by decide, by decide, form_trend_spec [] [0, 0, 0] (by decide) (by decide)⟩

/-- C8 counterexample: the team-value-efficiency computation is NOT
guarded — on the empty squad the division by `total_price * 0.5 = 0`
raises `ZeroDivisionError` instead of short-circuiting to a default. -/
theorem team_value_efficiency_unguarded :
    calculate_team_value_efficiency [] = Except.error "ZeroDivisionError" := by
  unfold calculate_team_value_efficiency pydiv
  norm_num [Except.instMonad, Except.bind]

/-- C8 amended: the linear-regression slope and the recency weighting are
fully guarded (they always return a value, defaulting to 0 on a zero
denominator or a short input), but the team-value-efficiency and
points-per-price divisions are unguarded and fault exactly when the squad
price total, respectively the player price, is zero. -/
theorem arithmetic_guards_amended :
    (∀ pts : List ℚ, ∃ q, calculate_linear_slope pts = Except.ok q) ∧
    (∀ perfs : List PerfRec, ∃ q, calculate_recency_bonus perfs = Except.ok q) ∧
    (∀ team : List PlayerRec,
      (calculate_team_value_efficiency team = Except.error "ZeroDivisionError" ↔
        (team.map (·.price)).sum = 0)) ∧
    (∀ p : PlayerRec,
      (points_per_million p = Except.error "ZeroDivisionError" ↔ p.price = 0)) := by
  refine ⟨?_, ?_, ?_, ?_⟩
  · intro pts
    unfold calculate_linear_slope
    dsimp only
    split
    · exact ⟨0, rfl⟩
    · rename_i hlen
      have hx : ¬ ((List.range pts.length).map (Nat.cast : ℕ → ℚ)).length = 0 := by
        simp only [List.length_map, List.length_range]
        omega
      have hy : ¬ pts.length = 0 := by omega
      obtain ⟨xm, hxm⟩ : ∃ m, pymean ((List.range pts.length).map
          (Nat.cast : ℕ → ℚ)) = Except.ok m :=
        ⟨_, by unfold pymean; rw [if_neg hx]⟩
      obtain ⟨ym, hym⟩ : ∃ m, pymean pts = Except.ok m :=
        ⟨_, by unfold pymean; rw [if_neg hy]⟩
      rw [hxm, hym]
      simp only [Except.instMonad, Except.bind]
      split
      · exact ⟨0, rfl⟩
      · rename_i hden
        unfold pydiv
        rw [if_neg hden]
        exact ⟨_, rfl⟩
  · intro perfs
    unfold calculate_recency_bonus
    dsimp only
    split
    · exact ⟨0, rfl⟩
    · split
      · exact ⟨0, rfl⟩
      · rename_i htw
        unfold pydiv
        rw [if_neg htw]
        exact ⟨_, rfl⟩
  · intro team
    have hiff : ((team.map (·.price)).sum * (5 / 10) = 0) ↔
        (team.map (·.price)).sum = 0 := by
      constructor
      · intro hc
        rcases mul_eq_zero.mp hc with h1 | h2
        · exact h1
        · norm_num at h2
      · intro hc
        rw [hc]
        ring
    unfold calculate_team_value_efficiency pydiv
    dsimp only
    by_cases h : (team.map (·.price)).sum = 0
    · rw [if_pos (hiff.mpr h)]
      simp [Except.instMonad, Except.bind, h]
    · rw [if_neg (fun hc => h (hiff.mp hc))]
      simp [Except.instMonad, Except.bind, Except.pure, h]
  · intro p
    unfold points_per_million pydiv
    by_cases h : p.price = 0
    · simp [h]
    · simp [h]

/-- C7: a pool player enters the value-transfer classification exactly
when they are outside the current squad and their cumulative signal score
exceeds 2; the returned list is a descending-by-score selection of at most
10 of these candidates, and a candidate is left out only when the list is
full with entries scoring at least as much. -/
theorem value_transfers_spec (fixture_run : Nat → ℚ)
    (current_team available : List PoolPlayer) :
    (∀ p : PoolPlayer,
      (∃ s, (p, s) ∈ value_transfer_candidates fixture_run current_team available) ↔
        (p ∈ available ∧ p.id ∉ current_team.map (·.id) ∧
          2 < value_signal_score fixture_run p)) ∧
    (∀ pr ∈ identify_value_transfers fixture_run current_team available,
      pr.1 ∈ available ∧ pr.1.id ∉ current_team.map (·.id) ∧ 2 < pr.2 ∧
        pr.2 = value_signal_score fixture_run pr.1) ∧
    (identify_value_transfers fixture_run current_team available).length ≤ 10 ∧
    List.Sorted (fun a b => b.2 ≤ a.2)
      (identify_value_transfers fixture_run current_team available) ∧
    (∀ pr ∈ value_transfer_candidates fixture_run current_team available,
      pr ∉ identify_value_transfers fixture_run current_team available →
        (identify_value_transfers fixture_run current_team available).length = 10 ∧
        ∀ qr ∈ identify_value_transfers fixture_run current_team available,
          pr.2 ≤ qr.2) := by
  have hmem : ∀ pr : PoolPlayer × Nat,
      pr ∈ value_transfer_candidates fixture_run current_team available ↔
        (pr.1 ∈ available ∧ pr.1.id ∉ current_team.map (·.id) ∧
          2 < value_signal_score fixture_run pr.1 ∧
          pr.2 = value_signal_score fixture_run pr.1) := by
    rintro ⟨p, s⟩
    unfold value_transfer_candidates
    simp only [List.mem_map, List.mem_filter, Bool.and_eq_true, decide_eq_true_eq,
      Prod.mk.injEq]
    constructor
    · rintro ⟨a, ⟨ha, hna, hsc⟩, heq1, heq2⟩
      subst heq1
      exact ⟨ha, hna, hsc, heq2.symm⟩
    · rintro ⟨ha, hna, hsc, hs⟩
      exact ⟨p, ⟨ha, hna, hsc⟩, rfl, hs.symm⟩
  have hperm := List.perm_insertionSort (fun a b : PoolPlayer × Nat => b.2 ≤ a.2)
    (value_transfer_candidates fixture_run current_team available)
  have hsorted := List.sorted_insertionSort (fun a b : PoolPlayer × Nat => b.2 ≤ a.2)
    (value_transfer_candidates fixture_run current_team available)
  have hout : identify_value_transfers fixture_run current_team available =
      (List.insertionSort (fun a b : PoolPlayer × Nat => b.2 ≤ a.2)
        (value_transfer_candidates fixture_run current_team available)).take 10 := rfl
  refine ⟨?_, ?_, ?_, ?_, ?_⟩
  · intro p
    constructor
    · rintro ⟨s, hs⟩
      have := (hmem (p, s)).mp hs
      exact ⟨this.1, this.2.1, this.2.2.1⟩
    · rintro ⟨ha, hna, hsc⟩
      exact ⟨value_signal_score fixture_run p,
        (hmem (p, value_signal_score fixture_run p)).mpr ⟨ha, hna, hsc, rfl⟩⟩
  · intro pr hpr
    have h1 : pr ∈ List.insertionSort (fun a b : PoolPlayer × Nat => b.2 ≤ a.2)
        (value_transfer_candidates fixture_run current_team available) := by
      rw [hout] at hpr
      exact List.mem_of_mem_take hpr
    have h2 := (hmem pr).mp (hperm.subset h1)
    exact ⟨h2.1, h2.2.1, h2.2.2.2 ▸ h2.2.2.1, h2.2.2.2⟩
  · rw [hout]
    exact List.length_take_le 10 _
  · rw [hout]
    exact List.Pairwise.sublist (List.take_sublist 10 _) hsorted
  · intro pr hpr hnot
    rw [hout] at hnot
    have hmemS : pr ∈ List.insertionSort (fun a b : PoolPlayer × Nat => b.2 ≤ a.2)
        (value_transfer_candidates fixture_run current_team available) :=
      hperm.mem_iff.mpr hpr
    have hsplit := List.take_append_drop 10
      (List.insertionSort (fun a b : PoolPlayer × Nat => b.2 ≤ a.2)
        (value_transfer_candidates fixture_run current_team available))
    have hdrop : pr ∈ (List.insertionSort (fun a b : PoolPlayer × Nat => b.2 ≤ a.2)
        (value_transfer_candidates fixture_run current_team available)).drop 10 := by
      rcases List.mem_append.mp (hsplit ▸ hmemS) with h | h
      · exact absurd h hnot
      · exact h
    constructor
    · have hlen : 10 < (List.insertionSort (fun a b : PoolPlayer × Nat => b.2 ≤ a.2)
          (value_transfer_candidates fixture_run current_team available)).length := by
        by_contra hle
        push_neg at hle
        rw [List.drop_eq_nil_of_le hle] at hdrop
        exact absurd hdrop (List.not_mem_nil pr)
      rw [hout, List.length_take]
      omega
    · intro qr hqr
      rw [hout] at hqr
      have hpw := hsorted
      rw [← hsplit] at hpw
      exact (List.pairwise_append.mp hpw).2.2 qr hqr pr hdrop

/-- The fixture-run oracle for the value-transfer witness: a strong run
for club 9, no fixtures for everyone else. -/
def wFixtureRun : Nat → ℚ := fun t => if t = 9 then 1 else 0

/-- A pool player hitting all four value signals: rising price, a strong
fixture run for club 9, expected points above 7 and form above 6, for a
total score of 8. -/
def wValuePlayer : PoolPlayer := ⟨21, 1, 8, 7, 9⟩

/-- A pool player hitting no signal at all. -/
def wDullPlayer : PoolPlayer := ⟨22, 0, 1, 0, 7⟩

/-- A two-player pool for the value-transfer witness. -/
def wValuePool : List PoolPlayer := [wDullPlayer, wValuePlayer]

/-- Witness for the value-transfer theorem on a concrete pool: the
all-signals player is listed with score 8 and the scoreless player is not
a candidate. -/
theorem value_transfers_spec_witness :
    ((wValuePlayer, 8) ∈ identify_value_transfers wFixtureRun [] wValuePool) ∧
    (wValuePlayer ∈ wValuePool ∧
      wValuePlayer.id ∉ ([] : List PoolPlayer).map (·.id) ∧ 2 < 8 ∧
      8 = value_signal_score wFixtureRun wValuePlayer) ∧
    (identify_value_transfers wFixtureRun [] wValuePool).length ≤ 10 ∧
    ¬ (∃ s, (wDullPlayer, s) ∈ value_transfer_candidates wFixtureRun [] wValuePool) := by
  have hscore : value_signal_score wFixtureRun wValuePlayer = 8 := by
    unfold value_signal_score wFixtureRun wValuePlayer
    norm_num
  have hdull : value_signal_score wFixtureRun wDullPlayer = 0 := by
    unfold value_signal_score wFixtureRun wDullPlayer
    norm_num
  have hcand : value_transfer_candidates wFixtureRun [] wValuePool =
      [(wValuePlayer, 8)] := by
    unfold value_transfer_candidates wValuePool
    simp [List.filter_cons, hscore, hdull]
  have hid : identify_value_transfers wFixtureRun [] wValuePool =
      [(wValuePlayer, 8)] := by
    unfold identify_value_transfers
    rw [hcand]
    rfl
  have hin : (wValuePlayer, 8) ∈ identify_value_transfers wFixtureRun [] wValuePool := by
    rw [hid]
    exact List.mem_singleton.mpr rfl
  have h2 := (value_transfers_spec wFixtureRun [] wValuePool).2.1 (wValuePlayer, 8) hin
  refine ⟨hin, ⟨h2.1, h2.2.1, h2.2.2.1, h2.2.2.2⟩, ?_, ?_⟩
  · exact (value_transfers_spec wFixtureRun [] wValuePool).2.2.1
  · rintro ⟨s, hs⟩
    have h := ((value_transfers_spec wFixtureRun [] wValuePool).1 wDullPlayer).mp ⟨s, hs⟩
    rw [hdull] at h
    exact absurd h.2.2 (by decide)

/-- C9: `suggest_captain` returns a captain/vice-captain/alternatives
record exactly when the team has at least 2 members and aborts with an
`IndexError` exactly when it has fewer; when it succeeds, the alternatives
slice `[2:5]` is total and holds `min 3 (n − 2)` entries, which is fewer
than 3 for teams of fewer than 5 players. -/
theorem suggest_captain_spec (score : PlayerRec → ℚ) (team : List PlayerRec) :
    ((∃ res, suggest_captain score team = Except.ok res) ↔ 2 ≤ team.length) ∧
    ((∃ e, suggest_captain score team = Except.error e) ↔ team.length < 2) ∧
    (∀ res, suggest_captain score team = Except.ok res →
      res.alternatives.length = min 3 (team.length - 2)) := by
  have hlen : (List.insertionSort (fun a b : PlayerRec × ℚ => b.2 ≤ a.2)
      (team.map (fun p => (p, score p)))).length = team.length := by
    rw [(List.perm_insertionSort _ _).length_eq, List.length_map]
  unfold suggest_captain
  dsimp only
  cases hsorted : List.insertionSort (fun a b : PlayerRec × ℚ => b.2 ≤ a.2)
      (team.map (fun p => (p, score p))) with
  | nil =>
    rw [hsorted] at hlen
    simp only [List.length_nil] at hlen
    refine ⟨?_, ?_, ?_⟩
    · constructor
      · rintro ⟨res, hres⟩
        exact absurd hres (by simp)
      · intro h2
        omega
    · constructor
      · intro _
        omega
      · intro _
        exact ⟨"IndexError", rfl⟩
    · intro res hres
      exact absurd hres (by simp)
  | cons c tl =>
    cases tl with
    | nil =>
      rw [hsorted] at hlen
      simp only [List.length_cons, List.length_nil] at hlen
      refine ⟨?_, ?_, ?_⟩
      · constructor
        · rintro ⟨res, hres⟩
          exact absurd hres (by simp)
        · intro h2
          omega
      · constructor
        · intro _
          omega
        · intro _
          exact ⟨"IndexError", rfl⟩
      · intro res hres
        exact absurd hres (by simp)
    | cons v rest =>
      rw [hsorted] at hlen
      simp only [List.length_cons] at hlen
      refine ⟨?_, ?_, ?_⟩
      · constructor
        · intro _
          omega
        · intro _
          exact ⟨_, rfl⟩
      · constructor
        · rintro ⟨e, he⟩
          exact absurd he (by simp)
        · intro h
          omega
      · intro res hres
        have hres2 := Except.ok.inj hres
        rw [← hres2]
        simp only [List.drop_succ_cons, List.drop_zero, List.length_take]
        omega

/-- A 4-player team for the captain-suggestion witness: large enough to
succeed, small enough that the alternatives slice holds fewer than 3
entries. -/
def wSmallTeam : List PlayerRec :=
  [⟨1, "p1", "GK", 5, 5, 1⟩, ⟨2, "p2", "GK", 5, 5, 1⟩,
   ⟨3, "p3", "DEF", 5, 5, 1⟩, ⟨4, "p4", "DEF", 5, 5, 2⟩]

/-- The record `suggest_captain` produces on `wSmallTeam` with a constant
score (the stable sort preserves the original order). -/
def wSuggestion : CaptainSuggestion :=
  ⟨(⟨1, "p1", "GK", 5, 5, 1⟩, 0), (⟨2, "p2", "GK", 5, 5, 1⟩, 0),
   [(⟨3, "p3", "DEF", 5, 5, 1⟩, 0), (⟨4, "p4", "DEF", 5, 5, 2⟩, 0)]⟩

/-- Witness for the captain-suggestion theorem on a concrete 4-player
team: the call succeeds and the alternatives list has `min 3 (4 − 2) = 2`
entries. -/
theorem suggest_captain_spec_witness :
    suggest_captain (fun _ => (0 : ℚ)) wSmallTeam = Except.ok wSuggestion ∧
    2 ≤ wSmallTeam.length ∧
    wSuggestion.alternatives.length = min 3 (wSmallTeam.length - 2) := by
  have hEq : suggest_captain (fun _ => (0 : ℚ)) wSmallTeam = Except.ok wSuggestion := by
    unfold suggest_captain wSmallTeam wSuggestion
    simp [List.insertionSort, List.orderedInsert]
  exact ⟨hEq, by decide,
    (suggest_captain_spec (fun _ => (0 : ℚ)) wSmallTeam).2.2 wSuggestion hEq⟩
